import Mathlib

/-!
Verification development for the array benchmark harness (`src/main.rs`).

The harness drives each container variant through three timed phases
(Create, Ordered-Scan, Drain), repeats that 7 times, and reduces each
column of 7 trial durations to one reported millisecond value with
`compute_average`.  We embed the arithmetic of `compute_average` and the
pure control structure of the three phase loops, and prove the spec's
claims about them.

Modelling conventions:
* A Rust `std::time::Duration` is modelled as its total length in
  nanoseconds, a `Nat` (Rust stores seconds as `u64` plus a sub-second
  nanosecond count; comparison and sorting order is the order of the
  total nanosecond value).
* `d.as_millis()` is exact on `u128`; the source casts it `as u64`,
  which truncates modulo `2 ^ 64`.
* The `u64` accumulation in the fold wraps modulo `2 ^ 64` (release
  build semantics).
* The slice expression `times[1..times.len() - 2]` panics when
  `times.len() < 3` (for `len < 2` the `usize` subtraction itself
  aborts, for `len = 2` the range `1..0` is invalid); `compute_average`
  therefore returns `Option Nat`, with `none` for the panic.
-/

/-- Nanoseconds in one millisecond, the divisor used by `Duration::as_millis`. -/
def NANOS_PER_MILLI : Nat := 1000000

/-- The modulus of `u64` arithmetic. -/
def U64_MOD : Nat := 2 ^ 64

/-- The expression `x.as_millis() as u64` of the source, on a duration of
`d` nanoseconds: exact division by `10 ^ 6`, then the truncating cast to
`u64`. -/
def asMillisU64 (d : Nat) : Nat := (d / NANOS_PER_MILLI) % U64_MOD

/-- Embedding of `compute_average` (src/main.rs lines 18-24):

```rust
fn compute_average(mut times: Vec<Duration>) -> u64 {
    times.sort();
    let total: u64 = times[1..times.len() - 2]
        .iter()
        .fold(0, |acc, x| acc + x.as_millis() as u64);
    total / (times.len() as u64 - 2)
}
```

`times.sort()` produces the unique ascending reordering of the values
(durations ordered by total nanoseconds), here `List.insertionSort`.
The slice `times[1..len - 2]` keeps the elements at indices
`1, …, len - 3`, i.e. `(·.drop 1).take (len - 3)` of the sorted list; it
panics exactly when `len < 3`, modelled by `none`. -/
def compute_average (times : List Nat) : Option Nat :=
  if times.length < 3 then none
  else
    let sorted := List.insertionSort (· ≤ ·) times
    let slice := (sorted.drop 1).take (times.length - 3)
    let total := slice.foldl (fun acc x => (acc + asMillisU64 x) % U64_MOD) 0
    some (total / (times.length - 2))

/-- The Trimmed Aggregator as worded by the spec: sort the K values
ascending; drop the single lowest value and the two highest values; sum
the remaining K−3 values, each taken as whole milliseconds; divide by
K−2. -/
def trimmedAggregatorSpec (times : List Nat) : Nat :=
  let sorted := List.insertionSort (· ≤ ·) times
  let kept := ((sorted.drop 1).dropLast).dropLast
  (kept.map asMillisU64).sum / (times.length - 2)

/-- Embedding of the Create phase of `benchmark_vector`
(src/main.rs lines 176-181): start from an empty vector and `push` each
value of `0..size` onto its end, in order. -/
def create_phase (size : Nat) : List Nat :=
  (List.range size).foldl (fun coll value => coll ++ [value]) []

/-- Embedding of the Ordered-Scan phase (src/main.rs lines 185-188):
iterate the container forward, `assert_eq!(*value, index)` against the
running index.  `Except.error i` is the panic of the failed assertion at
index `i`, which aborts the run at that point; `Except.ok ()` is the scan
running to completion. -/
def ordered_scan : List Nat → Nat → Except Nat Unit
  | [], _ => Except.ok ()
  | v :: rest, idx => if v = idx then ordered_scan rest (idx + 1) else Except.error idx

/-- `Vec::pop` (and the `pop` of every variant under test): return the
last element, if any, and the container without it. -/
def pop (coll : List Nat) : Option Nat × List Nat :=
  (coll.getLast?, coll.dropLast)

/-- Embedding of the Drain phase (src/main.rs lines 192-195):
`while !coll.is_empty() { coll.pop(); }`, counting the pop calls.
Returns the final container content and the number of pops performed. -/
def drain_loop (coll : List Nat) (count : Nat) : List Nat × Nat :=
  if coll.isEmpty then (coll, count)
  else drain_loop (pop coll).2 (count + 1)
termination_by coll.length
decreasing_by
  simp only [pop, List.length_dropLast]
  rename_i h
  have hne : coll ≠ [] := by simpa [List.isEmpty_iff] using h
  have := List.length_pos.mpr hne
  omega

/-- The container states at the moment of each `pop` call made by the
drain loop: the loop checks `is_empty` first and pops only on `false`. -/
def drain_pop_calls (coll : List Nat) : List (List Nat) :=
  if coll.isEmpty then []
  else coll :: drain_pop_calls (pop coll).2
termination_by coll.length
decreasing_by
  simp only [pop, List.length_dropLast]
  rename_i h
  have hne : coll ≠ [] := by simpa [List.isEmpty_iff] using h
  have := List.length_pos.mpr hne
  omega

/- ### Helper lemmas -/

/-- The source's `u64`-wrapping fold of millisecond values agrees with
the exact sum of those millisecond values as long as that sum stays
below `2 ^ 64`. -/
theorem foldl_mod_eq_sum (slice : List Nat) (acc : Nat)
    (h : acc + (slice.map asMillisU64).sum < U64_MOD) :
    slice.foldl (fun a x => (a + asMillisU64 x) % U64_MOD) acc =
      acc + (slice.map asMillisU64).sum := by
  induction slice generalizing acc with
  | nil => simp
  | cons x t ih =>
    simp only [List.foldl_cons, List.map_cons, List.sum_cons] at h ⊢
    rw [Nat.mod_eq_of_lt (by omega), ih (acc + asMillisU64 x) (by omega)]
    omega

/-- Dropping the two last elements after dropping the head keeps exactly
the elements at indices `1, …, len - 3`. -/
theorem drop_one_dropLast_dropLast (l : List Nat) :
    ((l.drop 1).dropLast).dropLast = (l.drop 1).take (l.length - 3) := by
  rw [List.dropLast_eq_take, List.dropLast_eq_take, List.take_take,
    List.length_take, List.length_drop]
  congr 1
  omega

/-- Pushing the elements of `l` one by one onto the end of `acc` appends
`l` to `acc`. -/
theorem foldl_push_eq_append (l acc : List Nat) :
    l.foldl (fun coll value => coll ++ [value]) acc = acc ++ l := by
  induction l generalizing acc with
  | nil => simp
  | cons x t ih => simp [ih]

/-- The Create phase builds exactly `List.range size`. -/
theorem create_phase_eq_range (size : Nat) : create_phase size = List.range size := by
  simpa [create_phase] using foldl_push_eq_append (List.range size) []

/-- The ordered scan from running index `idx` succeeds iff every element
equals `idx` plus its position. -/
theorem ordered_scan_ok_iff (l : List Nat) (idx : Nat) :
    ordered_scan l idx = Except.ok () ↔ ∀ i (h : i < l.length), l.get ⟨i, h⟩ = idx + i := by
  induction l generalizing idx with
  | nil => simp [ordered_scan]
  | cons v rest ih =>
    by_cases hv : v = idx
    · simp only [ordered_scan, if_pos hv, ih]
      constructor
      · intro hr i hi
        match i with
        | 0 => simpa using hv
        | i + 1 =>
          have h2 : i < rest.length := by simpa using Nat.lt_of_succ_lt_succ hi
          have h3 := hr i h2
          rw [List.get_cons_succ, h3]
          omega
      · intro hr i hi
        have h2 : i + 1 < (v :: rest).length := by simpa using Nat.succ_lt_succ hi
        have h3 := hr (i + 1) h2
        rw [List.get_cons_succ] at h3
        rw [h3]
        omega
    · simp only [ordered_scan, if_neg hv]
      constructor
      · intro hr
        exact absurd hr (by simp)
      · intro hr
        exact absurd (by simpa using hr 0 (by simp)) hv

/-- The drain loop empties the container and performs one pop per
element. -/
theorem drain_loop_spec (l : List Nat) (count : Nat) :
    drain_loop l count = ([], count + l.length) := by
  induction l using List.reverseRecOn generalizing count with
  | nil => rw [drain_loop]; simp
  | append_singleton ys y ih =>
    rw [drain_loop]
    simp [pop, ih]
    omega

/- ### Claim theorems -/

/-- C4: on the 7 trial values 10ms, 2ms, 7ms, 100ms, 50ms, 3ms, 8ms the
aggregator sorts them to 2,3,7,8,10,50,100 ms, keeps the middle slice
3,7,8,10 ms summing to 28, and reports 28 / 5 = 5 (integer division). -/
theorem compute_average_example :
    compute_average [10000000, 2000000, 7000000, 100000000, 50000000, 3000000, 8000000] =
      some 5 ∧
    List.insertionSort (· ≤ ·)
        [10000000, 2000000, 7000000, 100000000, 50000000, 3000000, 8000000] =
      [2000000, 3000000, 7000000, 8000000, 10000000, 50000000, 100000000] ∧
    (((List.insertionSort (· ≤ ·)
        [10000000, 2000000, 7000000, 100000000, 50000000, 3000000, 8000000]).drop 1).take
          4).map asMillisU64 = [3, 7, 8, 10] ∧
    ([3, 7, 8, 10] : List Nat).sum = 28 ∧ (28 : Nat) / 5 = 5 := by
  decide

/-- C2 counterexample: a 3-trial input is not rejected anywhere — the
aggregator slices, sums and divides it without error, silently reporting
0 (the kept slice is empty), so no fatal configuration error happens
before (or after) measurement. -/
theorem compute_average_three_trials_not_rejected :
    compute_average [1000000, 2000000, 3000000] = some 0 := by
  decide

/-- C2 (amended): with exactly 4 trial values — indeed with any 3 or
more — the aggregator computes a value without panicking; with at most
2 values it panics inside the slice expression, after all measurements;
no input count is ever rejected before measurement. -/
theorem compute_average_small_inputs (l : List Nat) :
    (l.length = 4 → (compute_average l).isSome = true) ∧
    (l.length = 3 → (compute_average l).isSome = true) ∧
    (l.length ≤ 2 → compute_average l = none) := by
  refine ⟨fun h => ?_, fun h => ?_, fun h => ?_⟩
  · simp [compute_average, h]
  · simp [compute_average, h]
  · unfold compute_average
    rw [if_pos (by omega)]

/-- C2 witness: the amended claim at a concrete 4-element input and a
concrete 1-element input. -/
theorem compute_average_small_inputs_witness :
    (compute_average [1000000, 2000000, 3000000, 4000000]).isSome = true ∧
    compute_average [1000000] = none :=
  ⟨(compute_average_small_inputs [1000000, 2000000, 3000000, 4000000]).1 (by decide),
   (compute_average_small_inputs [1000000]).2.2 (by decide)⟩

/-- C3: the Ordered-Scan completes exactly when every iterated element
equals its zero-based position, and otherwise aborts fatally (the failed
assertion, carrying the index where it stopped); in particular the
iterator yielding 0, 1, 3 aborts at index 2. -/
theorem ordered_scan_correct :
    (∀ l : List Nat,
      ordered_scan l 0 = Except.ok () ↔ ∀ i (h : i < l.length), l.get ⟨i, h⟩ = i) ∧
    ordered_scan [0, 1, 3] 0 = Except.error 2 := by
  constructor
  · intro l
    simpa using ordered_scan_ok_iff l 0
  · rfl

/-- C3 witness: a conforming three-element container completes the scan. -/
theorem ordered_scan_correct_witness : ordered_scan [0, 1, 2] 0 = Except.ok () :=
  (ordered_scan_correct.1 [0, 1, 2]).mpr (by decide)

/-- C7: after the Create phase the container holds exactly
0, 1, …, N−1: its length is N, the element at every position i is i, and
forward iteration is strictly increasing. -/
theorem create_phase_correct (n : Nat) :
    (create_phase n).length = n ∧
    create_phase n = List.range n ∧
    (∀ i (h : i < (create_phase n).length), (create_phase n).get ⟨i, h⟩ = i) ∧
    List.Sorted (· < ·) (create_phase n) := by
  refine ⟨?_, create_phase_eq_range n, ?_, ?_⟩
  · rw [create_phase_eq_range]
    simp
  · intro i
    rw [create_phase_eq_range]
    intro h
    simp
  · rw [create_phase_eq_range]
    exact List.sorted_lt_range n

/-- C8: the Drain phase leaves the container reporting empty and
performs exactly one remove-last operation per element that was held. -/
theorem drain_phase_correct (l : List Nat) :
    ((drain_loop l 0).1).isEmpty = true ∧ (drain_loop l 0).2 = l.length := by
  simp [drain_loop_spec]

/-- C10: every container state at which the drain loop calls pop is
non-empty (the loop pops only after is_empty returned false), so pop
never observes the empty-container case and always returns a value. -/
theorem drain_pop_never_empty (l s : List Nat) (hs : s ∈ drain_pop_calls l) :
    s.isEmpty = false ∧ (pop s).1.isSome = true := by
  induction l using List.reverseRecOn with
  | nil =>
    rw [drain_pop_calls] at hs
    simp at hs
  | append_singleton ys y ih =>
    rw [drain_pop_calls] at hs
    simp only [pop, List.dropLast_concat] at hs
    rw [if_neg (by simp)] at hs
    rcases List.mem_cons.mp hs with rfl | hs
    · refine ⟨by simp, ?_⟩
      simp [pop]
    · exact ih hs

/-- C10 witness: the first pop of the drain of a two-element container
happens on the non-empty container itself. -/
theorem drain_pop_never_empty_witness :
    ([0, 1] : List Nat).isEmpty = false ∧ (pop [0, 1]).1.isSome = true :=
  drain_pop_never_empty [0, 1] [0, 1] (by rw [drain_pop_calls]; simp)

/-- C1: for K ≥ 4 trial durations whose trimmed millisecond sum fits in
`u64`, `compute_average` implements the spec's algorithm — sort the K
values ascending, drop the single lowest and the two highest, sum the
remaining K−3 millisecond values, divide by K−2 — and the kept slice
indeed has K−3 elements (so for K = 7 it sums 4 values and divides
by 5). -/
theorem compute_average_eq_spec (times : List Nat) (h4 : 4 ≤ times.length)
    (hof : ((((List.insertionSort (· ≤ ·) times).drop 1).take
        (times.length - 3)).map asMillisU64).sum < U64_MOD) :
    compute_average times = some (trimmedAggregatorSpec times) ∧
    (((List.insertionSort (· ≤ ·) times).drop 1).take (times.length - 3)).length =
      times.length - 3 := by
  have hlen : (List.insertionSort (· ≤ ·) times).length = times.length :=
    List.length_insertionSort _ times
  constructor
  · simp only [compute_average, trimmedAggregatorSpec]
    rw [if_neg (by omega)]
    rw [drop_one_dropLast_dropLast, hlen]
    rw [foldl_mod_eq_sum _ 0 (by simpa using hof)]
    simp
  · rw [List.length_take, List.length_drop, hlen]
    omega

/-- C1 witness: the spec formula evaluated at the 7 concrete trial
values of the end-to-end scenario. -/
theorem compute_average_eq_spec_witness :
    compute_average [10000000, 2000000, 7000000, 100000000, 50000000, 3000000, 8000000] =
      some (trimmedAggregatorSpec
        [10000000, 2000000, 7000000, 100000000, 50000000, 3000000, 8000000]) :=
  (compute_average_eq_spec _ (by decide) (by decide)).1

/-- C5: the aggregated value is invariant under permutation of the trial
values — sorting first makes the input order irrelevant. -/
theorem compute_average_perm_invariant (l l' : List Nat) (hp : l.Perm l')
    (_h4 : 4 ≤ l.length) :
    compute_average l = compute_average l' := by
  have hlen := hp.length_eq
  have hsort : List.insertionSort (· ≤ ·) l = List.insertionSort (· ≤ ·) l' :=
    List.eq_of_perm_of_sorted
      (((List.perm_insertionSort _ l).trans hp).trans (List.perm_insertionSort _ l').symm)
      (List.sorted_insertionSort _ l) (List.sorted_insertionSort _ l')
  simp only [compute_average, hlen, hsort]

/-- C5 witness: a 4-element list and its reversal aggregate to the same
value. -/
theorem compute_average_perm_invariant_witness :
    compute_average [1000000, 2000000, 3000000, 4000000] =
      compute_average [4000000, 3000000, 2000000, 1000000] :=
  compute_average_perm_invariant _ _ (by decide) (by decide)

/-- C6: the aggregated value ignores the extreme inputs — any two input
lists whose sorted forms agree on the middle slice (everything but the
smallest and the two largest values) aggregate to the same value, so
replacing the two largest values with arbitrarily larger ones or the
smallest with an arbitrarily smaller one changes nothing. -/
theorem compute_average_extremes_insensitive (l l' mid : List Nat)
    (a b c a' b' c' : Nat)
    (h : List.insertionSort (· ≤ ·) l = a :: (mid ++ [b, c]))
    (h' : List.insertionSort (· ≤ ·) l' = a' :: (mid ++ [b', c'])) :
    compute_average l = compute_average l' := by
  have hl : l.length = mid.length + 3 := by
    have h0 := congrArg List.length h
    rw [List.length_insertionSort] at h0
    simp at h0
    omega
  have hl' : l'.length = mid.length + 3 := by
    have h0 := congrArg List.length h'
    rw [List.length_insertionSort] at h0
    simp at h0
    omega
  simp only [compute_average, hl, hl', h, h']
  rw [if_neg (by omega), if_neg (by omega)]
  have e1 : (mid ++ [b, c]).take (mid.length + 3 - 3) = mid := List.take_left' (by omega)
  have e2 : (mid ++ [b', c']).take (mid.length + 3 - 3) = mid := List.take_left' (by omega)
  simp only [List.drop_succ_cons, List.drop_zero, e1, e2]

/-- C6 witness: pushing the two largest values of the scenario input up
and its smallest value down leaves the aggregate unchanged. -/
theorem compute_average_extremes_insensitive_witness :
    compute_average [10000000, 2000000, 7000000, 100000000, 50000000, 3000000, 8000000] =
      compute_average [10000000, 1000000, 7000000, 900000000, 500000000, 3000000, 8000000] :=
  compute_average_extremes_insensitive _ _ [3000000, 7000000, 8000000, 10000000]
    2000000 50000000 100000000 1000000 500000000 900000000 (by decide) (by decide)

/-- C9: on a column of 7 identical whole-millisecond trials d the
aggregator reports 4·d / 5 (integer division), strictly below d for
every d ≥ 1, so a constant trial column is systematically
underestimated — the trimmed aggregate is not mean-preserving. -/
theorem compute_average_not_mean_preserving (d : Nat) (h1 : 1 ≤ d) (h2 : d < 2 ^ 61) :
    compute_average (List.replicate 7 (d * NANOS_PER_MILLI)) = some (4 * d / 5) ∧
    4 * d / 5 < d := by
  have hM : U64_MOD = 18446744073709551616 := by norm_num [U64_MOD]
  norm_num at h2
  have hms : asMillisU64 (d * NANOS_PER_MILLI) = d := by
    unfold asMillisU64
    rw [hM]
    unfold NANOS_PER_MILLI
    omega
  have hsort : List.insertionSort (· ≤ ·) (List.replicate 7 (d * NANOS_PER_MILLI)) =
      List.replicate 7 (d * NANOS_PER_MILLI) := by
    apply List.Sorted.insertionSort_eq
    exact List.pairwise_replicate.mpr (Or.inr le_rfl)
  constructor
  · simp only [compute_average, hsort, List.length_replicate]
    rw [if_neg (by omega)]
    have e1 : ((List.replicate 7 (d * NANOS_PER_MILLI)).drop 1).take (7 - 3) =
        List.replicate 4 (d * NANOS_PER_MILLI) := rfl
    have e2 : (List.replicate 4 (d * NANOS_PER_MILLI)).foldl
        (fun acc x => (acc + asMillisU64 x) % U64_MOD) 0 =
        ((((0 + asMillisU64 (d * NANOS_PER_MILLI)) % U64_MOD +
            asMillisU64 (d * NANOS_PER_MILLI)) % U64_MOD +
          asMillisU64 (d * NANOS_PER_MILLI)) % U64_MOD +
            asMillisU64 (d * NANOS_PER_MILLI)) % U64_MOD := rfl
    rw [e1, e2, hms, hM]
    congr 1
    omega
  · omega

/-- C9 witness: seven 10ms trials aggregate to 8ms, below the common
value. -/
theorem compute_average_not_mean_preserving_witness :
    compute_average (List.replicate 7 (10 * NANOS_PER_MILLI)) = some (4 * 10 / 5) ∧
    4 * 10 / 5 < 10 :=
  compute_average_not_mean_preserving 10 (by norm_num) (by norm_num)

/-- C7 witness: the Create phase for N = 3 and the value at position 1. -/
theorem create_phase_correct_witness :
    (create_phase 3).length = 3 ∧
    (create_phase 3).get ⟨1, by decide⟩ = 1 :=
  ⟨(create_phase_correct 3).1, (create_phase_correct 3).2.2.1 1 (by decide)⟩
